import Mathlib

/-!
Verification of the load-injection subsystem (candidate dataset selector,
unique-pair dataset cache, injection-plan registry, lifecycle updates and
history archiver) against its natural-language specification.

The Python source is shallowly embedded: database tables become lists of
records, SQL statements become list operations with the semantics the ORM
actually produces, and functions that raise become functions into `Except`.
SQL integer columns are modelled as `Int`; string columns as `String`; all
columns are taken non-NULL.
-/

namespace LoadInjection

/-- One row of the external placement/lock ledger (the `dataset_locks`
table): a dataset `(scope, name)` replicated at the endpoint `rse_id`,
with its lock `state` (`"O"` means complete), total size in `bytes` and
file count `length`. -/
structure DatasetLock where
  scope : String
  name : String
  rse_id : String
  state : String
  bytes : Int
  length : Int
deriving DecidableEq

/-- A candidate dataset for injected load between an RSE pair, as the
dictionaries produced by `scan_unique_rse_pair_datasets` and as the rows of
the `unique_datasets` cache table (`LoadInjectionDatasets`). -/
structure Candidate where
  scope : String
  name : String
  bytes : Int
  length : Int
  src_rse_id : String
  dest_rse_id : String
deriving DecidableEq

/-- The row filter of `scan_unique_rse_pair_datasets`. Two translation
notes, both read off the ORM semantics of the source statement:
the `bytes / length > 100000000` column expression is modelled as the
exact inequality `100000000 * length < bytes`; and the inner
`exists().where(...)` subquery mentions only the one table already in the
enclosing select, so it is NOT auto-correlated — it ranges over the whole
ledger, its `scope == scope` and `name == name` conditions are tautologies
on non-NULL columns, and it reduces to "some lock exists at the
destination RSE". -/
def scanFilter (src_rse_id dest_rse_id : String) (ledger : List DatasetLock)
    (l : DatasetLock) : Bool :=
  (l.state == "O") &&
  decide (0 < l.bytes) &&
  (decide (1 ≤ l.length) && decide (l.length ≤ 1000)) &&
  decide (100000000 * l.length < l.bytes) &&
  (l.rse_id == src_rse_id) &&
  !(ledger.any fun m =>
      (m.scope == m.scope) && (m.name == m.name) && (m.rse_id == dest_rse_id))

/-- `scan_unique_rse_pair_datasets(src_rse_id, dest_rse_id)`: query the
ledger with `scanFilter` and convert each row to a candidate dictionary. -/
def scan_unique_rse_pair_datasets (src_rse_id dest_rse_id : String)
    (ledger : List DatasetLock) : List Candidate :=
  let query_result := ledger.filter (scanFilter src_rse_id dest_rse_id ledger)
  query_result.map fun d =>
    { scope := d.scope, name := d.name, bytes := d.bytes, length := d.length,
      src_rse_id := src_rse_id, dest_rse_id := dest_rse_id }

/-- `validate_unique_rse_pair_dataset(scope, name, src_rse_id,
dest_rse_id)`: true iff the select over the ledger is non-empty. Here the
inner `exists().where(...)` compares against the literal `scope` and
`name` arguments (again uncorrelated), so it reads "some lock for
`(scope, name)` exists at the destination RSE". The select has no
condition on the lock `state`. -/
def validate_unique_rse_pair_dataset (scope name src_rse_id dest_rse_id : String)
    (ledger : List DatasetLock) : Bool :=
  let query_result := ledger.filter fun l =>
    (l.scope == scope) && (l.name == name) && (l.rse_id == src_rse_id) &&
    !(ledger.any fun m =>
        (m.scope == scope) && (m.name == name) && (m.rse_id == dest_rse_id))
  !query_result.isEmpty

/-- Candidate eligibility as the specification words it (reference
definition for the refinement claims, written from the spec, not from the
source): complete (`"O"`) lock at the source, positive size, length in
`[1, 1000]`, average file size strictly above `1e8`, and no lock with the
same `(scope, name)` at the destination. -/
def specEligibleCandidate (src_rse_id dest_rse_id : String)
    (ledger : List DatasetLock) (l : DatasetLock) : Bool :=
  (l.state == "O") &&
  decide (0 < l.bytes) &&
  (decide (1 ≤ l.length) && decide (l.length ≤ 1000)) &&
  decide (100000000 * l.length < l.bytes) &&
  (l.rse_id == src_rse_id) &&
  !(ledger.any fun m =>
      (m.scope == l.scope) && (m.name == l.name) && (m.rse_id == dest_rse_id))

/-- The plan lifecycle states. Modelled from the spec: the
`LoadInjectionState` constants module is not part of this slice; the spec
fixes the closed set waiting, running, completed, expired, error,
cancelled. -/
inductive LoadInjectionState where
  | waiting
  | running
  | completed
  | expired
  | error
  | cancelled
deriving DecidableEq

/-- One row of the `LoadInjectionPlans` table, with the fields the source
dictionaries carry. The float-valued columns (`fudge`, `max_injection`)
are only stored and copied, never computed with, so they are carried as
`Int`; timestamps likewise. -/
structure InjectionPlan where
  plan_id : String
  src_rse_id : String
  dest_rse_id : String
  inject_rate : Int
  state : LoadInjectionState
  interval : Int
  start_time : Int
  end_time : Int
  fudge : Int
  max_injection : Int
  expiration_delay : Int
  big_first : Bool
  rule_lifetime : Int
  comments : Option String
  dry_run : Bool
deriving DecidableEq

/-- One row of the `LoadInjectionPlansHistory` table. Modelled from the
spec for the schema only: the history table mirrors the plan schema,
including a plan-identifier column; a column not assigned by an insert is
stored NULL, hence `plan_id : Option String`. Which columns the insert in
the source actually assigns is taken from the source
(`add_injection_plans_history` below). -/
structure InjectionPlanHistory where
  plan_id : Option String
  src_rse_id : String
  dest_rse_id : String
  inject_rate : Int
  state : LoadInjectionState
  interval : Int
  start_time : Int
  end_time : Int
  fudge : Int
  max_injection : Int
  expiration_delay : Int
  big_first : Bool
  rule_lifetime : Int
  comments : Option String
  dry_run : Bool
deriving DecidableEq

/-- The durable store the subsystem owns: the live plans table, the
unique-pair dataset cache table, and the history table. -/
structure DB where
  plans : List InjectionPlan
  datasets : List Candidate
  history : List InjectionPlanHistory
deriving DecidableEq

def empty_db : DB := { plans := [], datasets := [], history := [] }

/-- The typed error conditions the embedded operations can surface. -/
inductive Err where
  | accessDenied
  | duplicateLoadInjectionPlan (src_rse dest_rse : String)
  | rucioException
  | multipleResultsFound
deriving DecidableEq

/-- `get_injection_plans(state=None)`: select all live plans; when a state
is given, keep the plans whose state equals it. -/
def get_injection_plans (state : Option LoadInjectionState) (db : DB) :
    List InjectionPlan :=
  match state with
  | some s => db.plans.filter fun plan => plan.state == s
  | none => db.plans

/-- `add_injection_plans(injection_plans)`: bulk-save the rows, then flush
once. The flush either accepts the whole batch or raises `IntegrityError`
(re-raised as `RucioException`); which batches the storage layer accepts
is decided by table constraints declared outside this slice, abstracted
here as the oracle `constraint_ok`. Modelled from the spec: the
`transactional_session` wrapper rolls the transaction back on an
exception ("Partial success is disallowed for bulk operations"), so the
error carries the unchanged store. -/
def add_injection_plans
    (constraint_ok : List InjectionPlan → List InjectionPlan → Bool)
    (injection_plans : List InjectionPlan) (db : DB) : Except (Err × DB) DB :=
  if constraint_ok db.plans injection_plans then
    .ok { db with plans := db.plans ++ injection_plans }
  else
    .error (.rucioException, db)

/-- `add_injection_plans_history(injection_plans)` builds each history row
from the plan dictionary. The source assigns every column except the
plan identifier — the `plan_id` key present in the input dictionaries is
not copied — so the stored row has `plan_id := none`. -/
def historyRecordOfPlan (plan : InjectionPlan) : InjectionPlanHistory :=
  { plan_id := none,
    src_rse_id := plan.src_rse_id,
    dest_rse_id := plan.dest_rse_id,
    inject_rate := plan.inject_rate,
    state := plan.state,
    interval := plan.interval,
    start_time := plan.start_time,
    end_time := plan.end_time,
    fudge := plan.fudge,
    max_injection := plan.max_injection,
    expiration_delay := plan.expiration_delay,
    big_first := plan.big_first,
    rule_lifetime := plan.rule_lifetime,
    comments := plan.comments,
    dry_run := plan.dry_run }

/-- `add_injection_plans_history(injection_plans)`: append one history row
per input plan; there is no duplicate check before the insert. -/
def add_injection_plans_history (injection_plans : List InjectionPlan)
    (db : DB) : DB :=
  { db with history := db.history ++ injection_plans.map historyRecordOfPlan }

/-- The `(src_rse_id, dest_rse_id)` key a bulk delete entry carries. -/
structure PlanKey where
  src_rse_id : String
  dest_rse_id : String
deriving DecidableEq

/-- `delete_injection_plans(injection_plans)`: for each listed entry,
delete every plans-table row whose destination and source RSE ids both
match; nothing else is touched. -/
def delete_injection_plans (injection_plans : List PlanKey) (db : DB) : DB :=
  { db with
    plans := injection_plans.foldl
      (fun rows plan => rows.filter fun row =>
        !((row.dest_rse_id == plan.dest_rse_id) &&
          (row.src_rse_id == plan.src_rse_id)))
      db.plans }

/-- `update_injection_plan_state(src_rse_id, dest_rse_id, new_state)`: an
unconditional UPDATE setting `state := new_state` on every plans-table
row matching the pair. The source performs no check of the current
state. -/
def update_injection_plan_state (src_rse_id dest_rse_id : String)
    (new_state : LoadInjectionState) (db : DB) : DB :=
  { db with
    plans := db.plans.map fun row =>
      if (row.dest_rse_id == dest_rse_id) && (row.src_rse_id == src_rse_id) then
        { row with state := new_state }
      else row }

/-- `get_injection_plan_state(src_rse_id, dest_rse_id)`: select the plans
matching the pair and take `scalar_one_or_none()`: `None` for no row, the
row for exactly one, and a `MultipleResultsFound` exception for more. -/
def get_injection_plan_state (src_rse_id dest_rse_id : String) (db : DB) :
    Except Err (Option LoadInjectionState) :=
  match db.plans.filter (fun row =>
      (row.dest_rse_id == dest_rse_id) && (row.src_rse_id == src_rse_id)) with
  | [] => .ok none
  | [row] => .ok (some row.state)
  | _ => .error .multipleResultsFound

/-- One item of the request body handed to the gateway: RSE names plus the
plan payload. -/
structure PlanRequest where
  src_rse : String
  dest_rse : String
  inject_rate : Int
  interval : Int
  start_time : Int
  end_time : Int
  fudge : Int
  max_injection : Int
  expiration_delay : Int
  big_first : Bool
  rule_lifetime : Int
  comments : Option String
  dry_run : Bool
deriving DecidableEq

/-- The first loop of the gateway `add_load_injection_plans`: resolve the
RSE names through `get_rse_id` (an external lookup, modelled as the
function `g`), set the state to `WAITING` and attach a generated plan
id. -/
def mkPlan (g : String → String) (uuid : String) (r : PlanRequest) :
    InjectionPlan :=
  { plan_id := uuid,
    src_rse_id := g r.src_rse,
    dest_rse_id := g r.dest_rse,
    inject_rate := r.inject_rate,
    state := .waiting,
    interval := r.interval,
    start_time := r.start_time,
    end_time := r.end_time,
    fudge := r.fudge,
    max_injection := r.max_injection,
    expiration_delay := r.expiration_delay,
    big_first := r.big_first,
    rule_lifetime := r.rule_lifetime,
    comments := r.comments,
    dry_run := r.dry_run }

/-- Apply `mkPlan` to each request, drawing generated plan ids from the
supply `u` (the external `generate_uuid`). -/
def mkPlans (g : String → String) (u : Nat → String) :
    Nat → List PlanRequest → List InjectionPlan
  | _, [] => []
  | k, r :: rs => mkPlan g (u k) r :: mkPlans g u (k + 1) rs

/-- The duplicate-check loop of the gateway: walk the requests in order
and raise on the first one whose resolved pair equals the pair of some
plan in the `present_plans` snapshot. The snapshot is taken once, before
the loop, and the loop never compares a request against the other
requests of the same batch. -/
def duplicate_check (g : String → String) (present : List InjectionPlan) :
    List PlanRequest → Option (String × String)
  | [] => none
  | r :: rs =>
    if present.any fun p =>
        (p.src_rse_id == g r.src_rse) && (p.dest_rse_id == g r.dest_rse) then
      some (r.src_rse, r.dest_rse)
    else
      duplicate_check g present rs

/-- The gateway `add_load_injection_plans(injection_plans, issuer, vo)`:
build the plan rows, check the permission (the external permission engine
is abstracted as the boolean `allowed`), read the live-plans snapshot,
run the duplicate check against it, and finally call the core bulk
insert. Every raise happens before the insert and carries the store at
raise time. -/
def add_load_injection_plans (g : String → String) (allowed : Bool)
    (u : Nat → String)
    (constraint_ok : List InjectionPlan → List InjectionPlan → Bool)
    (reqs : List PlanRequest) (db : DB) : Except (Err × DB) DB :=
  let injection_plans := mkPlans g u 0 reqs
  if !allowed then
    .error (.accessDenied, db)
  else
    let present_plans := get_injection_plans none db
    match duplicate_check g present_plans reqs with
    | some (s, d) => .error (.duplicateLoadInjectionPlan s d, db)
    | none => add_injection_plans constraint_ok injection_plans db

/-- A whole sequence of gateway submissions: each batch is submitted with
sufficient permission; a failed batch leaves the store as it was. -/
def submit_or_keep (g : String → String) (u : Nat → String)
    (constraint_ok : List InjectionPlan → List InjectionPlan → Bool)
    (db : DB) (reqs : List PlanRequest) : DB :=
  match add_load_injection_plans g true u constraint_ok reqs db with
  | .ok db2 => db2
  | .error _ => db

/-- The ordered endpoint pair of a stored plan. -/
def planPair (p : InjectionPlan) : String × String :=
  (p.src_rse_id, p.dest_rse_id)

/-- The endpoint pair a request resolves to. -/
def reqPair (g : String → String) (r : PlanRequest) : String × String :=
  (g r.src_rse, g r.dest_rse)

/-- The registry invariant of §3: at most one live plan per ordered
`(src, dest)` pair. -/
def UniquePairs (plans : List InjectionPlan) : Prop :=
  (plans.map planPair).Nodup

/-! ### Claim C2 — candidate correctness of the selector -/

/-- A dataset at the source satisfying every eligibility condition of the
claim: complete, 200 MB in one file, no lock of the same name anywhere
else. -/
def c2LockA : DatasetLock :=
  { scope := "scope1", name := "dsA", rse_id := "SRC", state := "O",
    bytes := 200000000, length := 1 }

/-- An unrelated dataset holding a lock at the destination. -/
def c2LockB : DatasetLock :=
  { scope := "scope1", name := "dsB", rse_id := "DST", state := "O",
    bytes := 200000000, length := 1 }

/-- Claim C2: refuted on the code — the converse direction fails. `dsA`
satisfies every condition the claim lists (spec-side predicate evaluates
true: complete at `SRC`, sizes in range, and no lock named `dsA` at
`DST`), yet the scan returns the empty sequence, because its
NOT-EXISTS subquery is uncorrelated and empties the result as soon as any
lock at all (here the unrelated `dsB`) exists at the destination. -/
theorem C2_scan_misses_eligible_candidate :
    specEligibleCandidate "SRC" "DST" [c2LockA, c2LockB] c2LockA = true ∧
    scan_unique_rse_pair_datasets "SRC" "DST" [c2LockA, c2LockB] = [] := by
  constructor <;> rfl

/-! ### Claim C4 — history fidelity and write-once -/

/-- A terminal plan about to be archived. -/
def c4Plan : InjectionPlan :=
  { plan_id := "plan-1", src_rse_id := "S", dest_rse_id := "D",
    inject_rate := 100, state := .completed, interval := 900,
    start_time := 0, end_time := 3600, fudge := 0, max_injection := 0,
    expiration_delay := 1800, big_first := false, rule_lifetime := 3600,
    comments := none, dry_run := false }

/-- Claim C4: refuted on the code — the archived record is not a verbatim
copy: its stored plan identifier is NULL, not the plan's `"plan-1"`,
because the bulk history insert never assigns the `plan_id` column its
single-plan wrapper passes; and archiving the same plan a second time
appends a second record instead of failing. -/
theorem C4_history_not_verbatim_and_rearchives :
    (add_injection_plans_history [c4Plan] empty_db).history
        = [historyRecordOfPlan c4Plan] ∧
    (historyRecordOfPlan c4Plan).plan_id ≠ some c4Plan.plan_id ∧
    (add_injection_plans_history [c4Plan]
        (add_injection_plans_history [c4Plan] empty_db)).history
      = [historyRecordOfPlan c4Plan, historyRecordOfPlan c4Plan] := by
  refine ⟨rfl, by decide, rfl⟩

/-! ### Claim C5 — the re-validation gate -/

/-- A dataset locked at the source in a non-complete state (`"R"`). -/
def c5Lock : DatasetLock :=
  { scope := "s5", name := "n5", rse_id := "SRC", state := "R",
    bytes := 200000000, length := 1 }

/-- Claim C5, as stated, is false at this input: the ledger holds no
complete (`"O"`) lock at the source for `(s5, n5)` — its only lock is in
state `"R"` — yet `validate_unique_rse_pair_dataset` returns true,
because the source never filters on the lock state. -/
theorem C5_counterexample :
    validate_unique_rse_pair_dataset "s5" "n5" "SRC" "DST" [c5Lock] = true ∧
    ([c5Lock].filter fun l =>
        (l.scope == "s5") && (l.name == "n5") && (l.rse_id == "SRC") &&
        (l.state == "O")) = [] := by
  constructor <;> rfl

/-- Claim C5 (amended): `validate_unique_rse_pair_dataset` returns true
iff some lock for `(scope, name)` — in any state, complete or not — sits
at the source RSE and no lock for `(scope, name)` sits at the destination
RSE; in particular it returns false, without throwing, once the dataset
has been replicated to the destination or removed from the source. -/
theorem C5_amended_validate_iff (scope name src dest : String)
    (ledger : List DatasetLock) :
    validate_unique_rse_pair_dataset scope name src dest ledger = true ↔
      ((∃ l ∈ ledger, l.scope = scope ∧ l.name = name ∧ l.rse_id = src) ∧
       ¬∃ m ∈ ledger, m.scope = scope ∧ m.name = name ∧ m.rse_id = dest) := by
  have hdest : (ledger.any fun m =>
      (m.scope == scope) && (m.name == name) && (m.rse_id == dest)) = true ↔
      ∃ m ∈ ledger, m.scope = scope ∧ m.name = name ∧ m.rse_id = dest := by
    simp [List.any_eq_true, and_assoc]
  have hne : ∀ (L : List DatasetLock) (p : DatasetLock → Bool),
      (!(L.filter p).isEmpty) = true ↔ ∃ a ∈ L, p a = true := by
    intro L p
    constructor
    · intro h
      cases hL : L.filter p with
      | nil => rw [hL] at h; exact absurd h (by decide)
      | cons a t =>
        have ha : a ∈ L.filter p := by rw [hL]; exact List.mem_cons_self a t
        have hmem := List.mem_filter.mp ha
        exact ⟨a, hmem.1, hmem.2⟩
    · rintro ⟨a, haL, hpa⟩
      have hmem : a ∈ L.filter p := List.mem_filter.mpr ⟨haL, hpa⟩
      cases hL : L.filter p with
      | nil => rw [hL] at hmem; cases hmem
      | cons b t => rfl
  rw [show validate_unique_rse_pair_dataset scope name src dest ledger =
      !(ledger.filter fun l =>
          (l.scope == scope) && (l.name == name) && (l.rse_id == src) &&
          !(ledger.any fun m =>
              (m.scope == scope) && (m.name == name) && (m.rse_id == dest))).isEmpty
    from rfl, hne]
  constructor
  · rintro ⟨a, ha, hcond⟩
    simp only [Bool.and_eq_true, Bool.not_eq_true', beq_iff_eq] at hcond
    obtain ⟨⟨⟨hs, hn⟩, hr⟩, hany⟩ := hcond
    refine ⟨⟨a, ha, hs, hn, hr⟩, fun hex => ?_⟩
    rw [hdest.mpr hex] at hany
    exact absurd hany (by decide)
  · rintro ⟨⟨a, ha, hs, hn, hr⟩, hnot⟩
    refine ⟨a, ha, ?_⟩
    have hany : (ledger.any fun m =>
        (m.scope == scope) && (m.name == name) && (m.rse_id == dest)) = false := by
      cases hb : (ledger.any fun m =>
          (m.scope == scope) && (m.name == name) && (m.rse_id == dest)) with
      | false => rfl
      | true => exact absurd (hdest.mp hb) hnot
    simp [hs, hn, hr, hany]

/-! ### Claim C7 — state-filtered listing -/

/-- Claim C7: `get_injection_plans` with a state returns exactly the live
plans in that state, and with no state argument returns every live plan.
The operation is a pure read of the plans table: it is a function of the
store and returns a list without producing a new store. -/
theorem C7_get_plans_filters_by_state (s : LoadInjectionState) (db : DB) :
    (∀ p, p ∈ get_injection_plans (some s) db ↔ p ∈ db.plans ∧ p.state = s) ∧
    get_injection_plans none db = db.plans := by
  refine ⟨fun p => ?_, rfl⟩
  simp [get_injection_plans, List.mem_filter]

/-! ### Claim C3 — transition legality -/

/-- A plan already in the terminal state `completed`. -/
def c3Plan : InjectionPlan :=
  { plan_id := "plan-3", src_rse_id := "S", dest_rse_id := "D",
    inject_rate := 100, state := .completed, interval := 900,
    start_time := 0, end_time := 3600, fudge := 0, max_injection := 0,
    expiration_delay := 1800, big_first := false, rule_lifetime := 3600,
    comments := none, dry_run := false }

def c3DB : DB := { plans := [c3Plan], datasets := [], history := [] }

/-- Claim C3, as stated, is false at this input: the edge
`completed → running` is not among the legal transitions, so the claim
requires the call to fail and leave the state unchanged; the code instead
completes and the plan's state becomes `running`. -/
theorem C3_counterexample :
    (update_injection_plan_state "S" "D" .running c3DB).plans
      = [{ c3Plan with state := .running }] := by
  rfl

/-- Claim C3 (amended): `update_injection_plan_state` performs no
legality check at all — for every current state and every new state it
completes, overwriting the state of every live plan matching the pair
with `new_state` and leaving every other plan unchanged; no transition is
rejected with an InvalidTransition condition (the operation is total). -/
theorem C3_amended_update_unconditional (src dest : String)
    (ns : LoadInjectionState) (db : DB) (p : InjectionPlan)
    (hp : p ∈ db.plans) :
    (p.src_rse_id = src ∧ p.dest_rse_id = dest →
      { p with state := ns } ∈ (update_injection_plan_state src dest ns db).plans) ∧
    (¬(p.src_rse_id = src ∧ p.dest_rse_id = dest) →
      p ∈ (update_injection_plan_state src dest ns db).plans) := by
  constructor
  · rintro ⟨hs, hd⟩
    refine List.mem_map.mpr ⟨p, hp, ?_⟩
    simp [hs, hd]
  · intro hnot
    refine List.mem_map.mpr ⟨p, hp, ?_⟩
    cases hcond : ((p.dest_rse_id == dest) && (p.src_rse_id == src)) with
    | true =>
      exfalso
      apply hnot
      simp only [Bool.and_eq_true, beq_iff_eq] at hcond
      exact ⟨hcond.2, hcond.1⟩
    | false => simp [hcond]

/-- Witness for C3: the illegal edge `completed → running` is applied to
the concrete store `c3DB` and the overwritten plan is in the result. -/
theorem C3_amended_witness :
    { c3Plan with state := LoadInjectionState.running }
      ∈ (update_injection_plan_state "S" "D" .running c3DB).plans :=
  (C3_amended_update_unconditional "S" "D" .running c3DB c3Plan
    (by decide)).1 (by decide)

/-! ### Claim C10 — transition on an absent plan is a silent no-op -/

/-- Claim C10: when no live plan matches the pair,
`update_injection_plan_state` completes (it is a total operation — the
source raises only on storage `IntegrityError`, which a zero-row UPDATE
cannot produce) and leaves the whole store — plans, dataset cache and
history — unchanged. -/
theorem C10_update_absent_noop (src dest : String) (ns : LoadInjectionState)
    (db : DB)
    (h : ∀ p ∈ db.plans, ¬(p.src_rse_id = src ∧ p.dest_rse_id = dest)) :
    update_injection_plan_state src dest ns db = db := by
  have hmap : (db.plans.map fun row =>
      if (row.dest_rse_id == dest) && (row.src_rse_id == src) then
        { row with state := ns }
      else row) = db.plans := by
    have hcong : ∀ row ∈ db.plans,
        (if (row.dest_rse_id == dest) && (row.src_rse_id == src) then
          { row with state := ns }
        else row) = row := by
      intro row hrow
      cases hcond : ((row.dest_rse_id == dest) && (row.src_rse_id == src)) with
      | true =>
        exfalso
        apply h row hrow
        simp only [Bool.and_eq_true, beq_iff_eq] at hcond
        exact ⟨hcond.2, hcond.1⟩
      | false => simp [hcond]
    calc (db.plans.map fun row =>
          if (row.dest_rse_id == dest) && (row.src_rse_id == src) then
            { row with state := ns }
          else row)
        = db.plans.map id := List.map_congr_left hcong
      _ = db.plans := List.map_id db.plans
  show { db with plans := _ } = db
  rw [hmap]

def c10DB : DB := { plans := [c3Plan], datasets := [], history := [] }

/-- Witness for C10: updating the pair `("X", "Y")`, for which `c10DB`
holds no plan, returns the store unchanged. -/
theorem C10_witness :
    update_injection_plan_state "X" "Y" .running c10DB = c10DB :=
  C10_update_absent_noop "X" "Y" .running c10DB (by decide)

/-! ### Claim C8 — point lookup totality -/

/-- The WHERE clause `get_injection_plan_state` selects with. -/
def pairWhere (src_rse_id dest_rse_id : String) (row : InjectionPlan) : Bool :=
  (row.dest_rse_id == dest_rse_id) && (row.src_rse_id == src_rse_id)

/-- Claim C8: `get_injection_plan_state` returns `none` without raising
when no live plan matches the pair; when exactly one live plan matches —
in particular whenever the at-most-one invariant holds and a match
exists — it returns that plan's state; and with two or more matching
plans it raises (`MultipleResultsFound` from `scalar_one_or_none`)
instead of picking one. -/
theorem C8_point_lookup (src dest : String) (db : DB) :
    ((∀ p ∈ db.plans, pairWhere src dest p = false) →
      get_injection_plan_state src dest db = .ok none) ∧
    (∀ p ∈ db.plans, pairWhere src dest p = true →
      (db.plans.filter (pairWhere src dest)).length ≤ 1 →
      get_injection_plan_state src dest db = .ok (some p.state)) ∧
    (2 ≤ (db.plans.filter (pairWhere src dest)).length →
      get_injection_plan_state src dest db = .error .multipleResultsFound) := by
  have hdef : get_injection_plan_state src dest db =
      match db.plans.filter (pairWhere src dest) with
      | [] => .ok none
      | [row] => .ok (some row.state)
      | _ => .error .multipleResultsFound := rfl
  refine ⟨?_, ?_, ?_⟩
  · intro hnone
    have hnil : db.plans.filter (pairWhere src dest) = [] := by
      rw [List.filter_eq_nil_iff]
      intro p hm
      rw [hnone p hm]
      exact fun hf => nomatch hf
    rw [hdef, hnil]
  · intro p hmem hmatch hle
    have hpin : p ∈ db.plans.filter (pairWhere src dest) :=
      List.mem_filter.mpr ⟨hmem, hmatch⟩
    cases hL : db.plans.filter (pairWhere src dest) with
    | nil => rw [hL] at hpin; cases hpin
    | cons a t =>
      cases t with
      | nil =>
        rw [hL] at hpin
        have hpa : p = a := by
          cases hpin with
          | head => rfl
          | tail _ hnil => cases hnil
        rw [hdef, hL, hpa]
      | cons b t2 =>
        rw [hL] at hle
        exact absurd hle (by simp [List.length_cons])
  · intro h2
    cases hL : db.plans.filter (pairWhere src dest) with
    | nil => rw [hL] at h2; exact absurd h2 (by simp)
    | cons a t =>
      cases t with
      | nil => rw [hL] at h2; exact absurd h2 (by simp)
      | cons b t2 => rw [hdef, hL]

/-- A plan in the waiting state for the pair `("S8", "D8")`. -/
def c8Plan : InjectionPlan :=
  { plan_id := "plan-8", src_rse_id := "S8", dest_rse_id := "D8",
    inject_rate := 100, state := .waiting, interval := 900,
    start_time := 0, end_time := 3600, fudge := 0, max_injection := 0,
    expiration_delay := 1800, big_first := false, rule_lifetime := 3600,
    comments := none, dry_run := false }

def c8DB : DB := { plans := [c8Plan], datasets := [], history := [] }

/-- Witness for C8: looked up in a store holding exactly one plan for the
pair, the call returns that plan's state. -/
theorem C8_witness :
    get_injection_plan_state "S8" "D8" c8DB = .ok (some LoadInjectionState.waiting) :=
  (C8_point_lookup "S8" "D8" c8DB).2.1 c8Plan (by decide) (by decide) (by decide)

/-! ### Claim C9 — deletion frame condition -/

/-- Membership in the fold of per-entry DELETE statements: a row survives
iff it was present and matches none of the listed pairs. -/
theorem mem_delete_fold (keys : List PlanKey) (rows : List InjectionPlan)
    (p : InjectionPlan) :
    p ∈ keys.foldl
        (fun acc plan => acc.filter fun row =>
          !((row.dest_rse_id == plan.dest_rse_id) &&
            (row.src_rse_id == plan.src_rse_id)))
        rows ↔
      p ∈ rows ∧ ∀ k ∈ keys,
        ¬(p.src_rse_id = k.src_rse_id ∧ p.dest_rse_id = k.dest_rse_id) := by
  induction keys generalizing rows with
  | nil => simp
  | cons k ks ih =>
    rw [List.foldl_cons, ih]
    constructor
    · rintro ⟨hmem, hrest⟩
      have hm2 := List.mem_filter.mp hmem
      refine ⟨hm2.1, ?_⟩
      intro k2 hk2
      cases hk2 with
      | head =>
        have hb := hm2.2
        simp only [Bool.not_eq_true', Bool.and_eq_false_iff] at hb
        rintro ⟨hs, hd⟩
        cases hb with
        | inl h1 => rw [beq_eq_false_iff_ne] at h1; exact h1 hd
        | inr h2 => rw [beq_eq_false_iff_ne] at h2; exact h2 hs
      | tail _ htail => exact hrest k2 htail
    · rintro ⟨hmem, hall⟩
      refine ⟨List.mem_filter.mpr ⟨hmem, ?_⟩, fun k2 hk2 => hall k2 (List.mem_cons_of_mem k hk2)⟩
      have hk := hall k (List.mem_cons_self k ks)
      cases hcond : ((p.dest_rse_id == k.dest_rse_id) && (p.src_rse_id == k.src_rse_id)) with
      | true =>
        exfalso
        simp only [Bool.and_eq_true, beq_iff_eq] at hcond
        exact hk ⟨hcond.2, hcond.1⟩
      | false => rfl

/-- When no row matches any listed pair, the fold of DELETE statements is
the identity. -/
theorem delete_fold_no_match (keys : List PlanKey) (rows : List InjectionPlan)
    (h : ∀ p ∈ rows, ∀ k ∈ keys,
      ¬(p.src_rse_id = k.src_rse_id ∧ p.dest_rse_id = k.dest_rse_id)) :
    keys.foldl
      (fun acc plan => acc.filter fun row =>
        !((row.dest_rse_id == plan.dest_rse_id) &&
          (row.src_rse_id == plan.src_rse_id)))
      rows = rows := by
  induction keys with
  | nil => rfl
  | cons k ks ih =>
    rw [List.foldl_cons]
    have hfilter : (rows.filter fun row =>
        !((row.dest_rse_id == k.dest_rse_id) &&
          (row.src_rse_id == k.src_rse_id))) = rows := by
      rw [List.filter_eq_self]
      intro p hp
      cases hcond : ((p.dest_rse_id == k.dest_rse_id) &&
          (p.src_rse_id == k.src_rse_id)) with
      | true =>
        exfalso
        simp only [Bool.and_eq_true, beq_iff_eq] at hcond
        exact h p hp k (List.mem_cons_self k ks) ⟨hcond.2, hcond.1⟩
      | false => rfl
    rw [hfilter]
    exact ih fun p hp k2 hk2 => h p hp k2 (List.mem_cons_of_mem k hk2)

/-- Claim C9: `delete_injection_plans` removes exactly the live plans
whose pair matches a listed entry; the dataset cache and the history
table are untouched; and when no live plan matches any entry (in
particular when a listed pair has no live plan) the call completes — the
operation is total, never raising on a zero-row DELETE — and the store is
returned unchanged. -/
theorem C9_delete_frame (keys : List PlanKey) (db : DB) :
    (delete_injection_plans keys db).datasets = db.datasets ∧
    (delete_injection_plans keys db).history = db.history ∧
    (∀ p, p ∈ (delete_injection_plans keys db).plans ↔
      p ∈ db.plans ∧ ∀ k ∈ keys,
        ¬(p.src_rse_id = k.src_rse_id ∧ p.dest_rse_id = k.dest_rse_id)) ∧
    ((∀ p ∈ db.plans, ∀ k ∈ keys,
        ¬(p.src_rse_id = k.src_rse_id ∧ p.dest_rse_id = k.dest_rse_id)) →
      delete_injection_plans keys db = db) := by
  refine ⟨rfl, rfl, fun p => mem_delete_fold keys db.plans p, ?_⟩
  intro hall
  show { db with plans := _ } = db
  rw [delete_fold_no_match keys db.plans hall]

def c9DB : DB := { plans := [c8Plan], datasets := [], history := [] }

/-- Witness for C9: deleting the pair `("X9", "Y9")`, for which the store
holds no live plan, succeeds and changes nothing. -/
theorem C9_witness :
    delete_injection_plans [{ src_rse_id := "X9", dest_rse_id := "Y9" }] c9DB = c9DB :=
  (C9_delete_frame [{ src_rse_id := "X9", dest_rse_id := "Y9" }] c9DB).2.2.2
    (by decide)

/-! ### Claims C1 and C6 — uniqueness and bulk atomicity of submission -/

/-- The pairs of the built plan rows are the resolved pairs of the
requests, whatever index the id supply starts at. -/
theorem map_planPair_mkPlans (g : String → String) (u : Nat → String) :
    ∀ (k : Nat) (reqs : List PlanRequest),
      (mkPlans g u k reqs).map planPair = reqs.map (reqPair g) := by
  intro k reqs
  induction reqs generalizing k with
  | nil => rfl
  | cons r rs ih =>
    show planPair (mkPlan g (u k) r) :: (mkPlans g u (k + 1) rs).map planPair = _
    rw [ih (k + 1)]
    rfl

/-- The per-request comparison of the gateway's duplicate-check loop,
restated over endpoint pairs. -/
theorem any_pair_eq (g : String → String) (present : List InjectionPlan)
    (r : PlanRequest) :
    (present.any fun p =>
      (p.src_rse_id == g r.src_rse) && (p.dest_rse_id == g r.dest_rse)) = true ↔
    ∃ p ∈ present, planPair p = reqPair g r := by
  simp [List.any_eq_true, planPair, reqPair, Prod.ext_iff]

/-- The duplicate check passes iff no request's resolved pair equals the
pair of a plan in the snapshot. -/
theorem duplicate_check_eq_none (g : String → String)
    (present : List InjectionPlan) (reqs : List PlanRequest) :
    duplicate_check g present reqs = none ↔
      ∀ r ∈ reqs, ∀ p ∈ present, planPair p ≠ reqPair g r := by
  induction reqs with
  | nil => simp [duplicate_check]
  | cons r rs ih =>
    rw [show duplicate_check g present (r :: rs) =
        (if present.any fun p =>
            (p.src_rse_id == g r.src_rse) && (p.dest_rse_id == g r.dest_rse) then
          some (r.src_rse, r.dest_rse)
        else duplicate_check g present rs) from rfl]
    by_cases hany : (present.any fun p =>
        (p.src_rse_id == g r.src_rse) && (p.dest_rse_id == g r.dest_rse)) = true
    · rw [if_pos hany]
      constructor
      · intro h
        exact absurd h (by simp)
      · intro hall
        obtain ⟨p, hp, hpair⟩ := (any_pair_eq g present r).mp hany
        exact (hall r (List.mem_cons_self r rs) p hp hpair).elim
    · rw [if_neg hany, ih]
      constructor
      · intro hall r2 hr2
        cases hr2 with
        | head =>
          intro p hp hpair
          exact hany ((any_pair_eq g present r).mpr ⟨p, hp, hpair⟩)
        | tail _ htail => exact hall r2 htail
      · intro hall r2 hr2
        exact hall r2 (List.mem_cons_of_mem r hr2)

/-- Anatomy of a successful gateway submission: the permission held, the
duplicate check against the pre-call snapshot passed, and the new store
is the old plans table extended with exactly the built rows. -/
theorem add_ok_spec (g : String → String) (allowed : Bool) (u : Nat → String)
    (constraint_ok : List InjectionPlan → List InjectionPlan → Bool)
    (reqs : List PlanRequest) (db db2 : DB) :
    add_load_injection_plans g allowed u constraint_ok reqs db = .ok db2 →
      duplicate_check g db.plans reqs = none ∧
      db2.plans = db.plans ++ mkPlans g u 0 reqs := by
  intro h
  unfold add_load_injection_plans at h
  cases allowed with
  | false => exact absurd h (by simp)
  | true =>
    simp only [Bool.not_true, Bool.false_eq_true, if_false] at h
    cases hdup : duplicate_check g (get_injection_plans none db) reqs with
    | some sd =>
      rw [hdup] at h
      cases sd with
      | mk s d => exact absurd h (by simp)
    | none =>
      rw [hdup] at h
      unfold add_injection_plans at h
      by_cases hc : constraint_ok db.plans (mkPlans g u 0 reqs) = true
      · rw [if_pos hc] at h
        cases h
        exact ⟨hdup, rfl⟩
      · rw [if_neg hc] at h
        exact absurd h (by simp)

/-- One successful batch preserves the at-most-one-plan-per-pair
invariant, provided the batch itself contains no two requests resolving
to the same pair. -/
theorem step_preserves_unique (g : String → String) (allowed : Bool)
    (u : Nat → String)
    (constraint_ok : List InjectionPlan → List InjectionPlan → Bool)
    (reqs : List PlanRequest) (db db2 : DB)
    (hdb : UniquePairs db.plans) (hreqs : (reqs.map (reqPair g)).Nodup)
    (h : add_load_injection_plans g allowed u constraint_ok reqs db = .ok db2) :
    UniquePairs db2.plans := by
  obtain ⟨hdup, hplans⟩ := add_ok_spec g allowed u constraint_ok reqs db db2 h
  unfold UniquePairs
  rw [hplans, List.map_append, List.nodup_append]
  refine ⟨hdb, ?_, ?_⟩
  · rw [map_planPair_mkPlans]
    exact hreqs
  · intro x hx hx2
    rw [map_planPair_mkPlans] at hx2
    obtain ⟨p, hp, hpx⟩ := List.mem_map.mp hx
    obtain ⟨r, hr, hrx⟩ := List.mem_map.mp hx2
    have := (duplicate_check_eq_none g db.plans reqs).mp hdup r hr p hp
    rw [hpx, hrx] at this
    exact this rfl

/-- A whole sequence of submissions preserves the invariant when every
batch has internally distinct resolved pairs. -/
theorem fold_preserves_unique (g : String → String) (u : Nat → String)
    (constraint_ok : List InjectionPlan → List InjectionPlan → Bool)
    (batches : List (List PlanRequest)) :
    ∀ db : DB, (∀ b ∈ batches, (b.map (reqPair g)).Nodup) →
      UniquePairs db.plans →
      UniquePairs ((batches.foldl (submit_or_keep g u constraint_ok) db).plans) := by
  induction batches with
  | nil =>
    intro db _ hdb
    exact hdb
  | cons b bs ih =>
    intro db hb hdb
    rw [List.foldl_cons]
    apply ih
    · exact fun b2 hb2 => hb b2 (List.mem_cons_of_mem b hb2)
    · unfold submit_or_keep
      cases h : add_load_injection_plans g true u constraint_ok b db with
      | ok db2 =>
        exact step_preserves_unique g true u constraint_ok b db db2 hdb
          (hb b (List.mem_cons_self b bs)) h
      | error e => exact hdb

/-- Claim C1 (amended): a submission whose resolved pair coincides with a
plan live before the call fails with DuplicateLoadInjectionPlan and
inserts nothing (the error carries the unchanged store); and since the
duplicate check never compares two plans of the same batch against each
other, the at-most-one-live-plan-per-pair invariant holds after any
sequence of submissions in which each single batch resolves to pairwise
distinct endpoint pairs. -/
theorem C1_amended_uniqueness (g : String → String) (u : Nat → String)
    (constraint_ok : List InjectionPlan → List InjectionPlan → Bool)
    (batches : List (List PlanRequest)) (reqs : List PlanRequest) (db : DB)
    (r : PlanRequest) :
    ((∀ b ∈ batches, (b.map (reqPair g)).Nodup) →
      UniquePairs
        ((batches.foldl (submit_or_keep g u constraint_ok) empty_db).plans)) ∧
    (r ∈ reqs → (∃ p ∈ db.plans, planPair p = reqPair g r) →
      ∃ s d, add_load_injection_plans g true u constraint_ok reqs db =
        .error (.duplicateLoadInjectionPlan s d, db)) := by
  constructor
  · intro hb
    exact fold_preserves_unique g u constraint_ok batches empty_db hb
      (by simp [UniquePairs, empty_db])
  · intro hr hex
    cases hdup : duplicate_check g db.plans reqs with
    | none =>
      obtain ⟨p, hp, hpair⟩ := hex
      exact absurd hpair
        ((duplicate_check_eq_none g db.plans reqs).mp hdup r hr p hp)
    | some sd =>
      cases sd with
      | mk s d =>
        refine ⟨s, d, ?_⟩
        unfold add_load_injection_plans
        simp only [Bool.not_true, Bool.false_eq_true, if_false]
        rw [show get_injection_plans none db = db.plans from rfl, hdup]

/-- A conflicting request: same pair as the live plan in `c8Plan`. -/
def c1Req : PlanRequest :=
  { src_rse := "S", dest_rse := "D", inject_rate := 100, interval := 900,
    start_time := 0, end_time := 3600, fudge := 0, max_injection := 0,
    expiration_delay := 1800, big_first := false, rule_lifetime := 3600,
    comments := none, dry_run := false }

/-- Claim C1, as stated, is false at this input: one batch holding the
same request twice, submitted against the empty store, succeeds — both
rows are inserted and the resulting live table holds two plans for the
ordered pair `("S", "D")`, because the gateway's duplicate check only
compares against the pre-call snapshot. -/
theorem C1_counterexample :
    add_load_injection_plans (fun s => s) true (fun _ => "uuid-0")
        (fun _ _ => true) [c1Req, c1Req] empty_db
      = .ok { plans := [mkPlan (fun s => s) "uuid-0" c1Req,
                        mkPlan (fun s => s) "uuid-0" c1Req],
              datasets := [], history := [] } ∧
    ¬ UniquePairs [mkPlan (fun s => s) "uuid-0" c1Req,
                   mkPlan (fun s => s) "uuid-0" c1Req] := by
  constructor
  · rfl
  · intro h
    exact absurd h (by simp [UniquePairs, planPair, mkPlan, c1Req])

def c1DB : DB :=
  { plans := [mkPlan (fun s => s) "uuid-1" c1Req], datasets := [], history := [] }

/-- Witness for the amended C1: after one singleton batch the invariant
holds, and resubmitting the same pair against a store already holding it
fails with the duplicate condition, inserting nothing. -/
theorem C1_amended_witness :
    UniquePairs
      (([[c1Req]].foldl
          (submit_or_keep (fun s => s) (fun _ => "uuid-1") (fun _ _ => true))
          empty_db).plans) ∧
    ∃ s d, add_load_injection_plans (fun s => s) true (fun _ => "uuid-2")
        (fun _ _ => true) [c1Req] c1DB =
      .error (.duplicateLoadInjectionPlan s d, c1DB) := by
  have h := C1_amended_uniqueness (fun s => s) (fun _ => "uuid-1")
    (fun _ _ => true) [[c1Req]] [c1Req] c1DB c1Req
  have h2 := C1_amended_uniqueness (fun s => s) (fun _ => "uuid-2")
    (fun _ _ => true) [[c1Req]] [c1Req] c1DB c1Req
  exact ⟨h.1 (by simp [reqPair, c1Req]),
         h2.2 (List.mem_cons_self c1Req []) ⟨mkPlan (fun s => s) "uuid-1" c1Req,
           by simp [c1DB], rfl⟩⟩

/-- Claim C6: every failing gateway submission — permission denied,
duplicate pair, or a storage-level constraint violation at the bulk
flush — carries the store unchanged: no plan of the batch is persisted.
The two validation raises happen before the core insert is reached, and
the insert itself is all-or-nothing under its transaction. -/
theorem C6_bulk_atomicity (g : String → String) (allowed : Bool)
    (u : Nat → String)
    (constraint_ok : List InjectionPlan → List InjectionPlan → Bool)
    (reqs : List PlanRequest) (db db2 : DB) (e : Err)
    (h : add_load_injection_plans g allowed u constraint_ok reqs db
      = .error (e, db2)) :
    db2 = db := by
  unfold add_load_injection_plans at h
  cases allowed with
  | false =>
    simp only [Bool.not_false, if_true] at h
    cases h
    rfl
  | true =>
    simp only [Bool.not_true, Bool.false_eq_true, if_false] at h
    cases hdup : duplicate_check g (get_injection_plans none db) reqs with
    | some sd =>
      rw [hdup] at h
      cases sd with
      | mk s d =>
        cases h
        rfl
    | none =>
      rw [hdup] at h
      unfold add_injection_plans at h
      by_cases hc : constraint_ok db.plans (mkPlans g u 0 reqs) = true
      · rw [if_pos hc] at h
        exact absurd h (by simp)
      · rw [if_neg hc] at h
        cases h
        rfl

/-- Witness for C6: a duplicate-pair submission against `c1DB` fails and
the store carried by the error equals the pre-call store. -/
theorem C6_witness :
    add_load_injection_plans (fun s => s) true (fun _ => "uuid-3")
        (fun _ _ => true) [c1Req] c1DB
      = .error (.duplicateLoadInjectionPlan "S" "D", c1DB) ∧ c1DB = c1DB := by
  refine ⟨by rfl, ?_⟩
  exact C6_bulk_atomicity (fun s => s) true (fun _ => "uuid-3")
    (fun _ _ => true) [c1Req] c1DB c1DB (.duplicateLoadInjectionPlan "S" "D")
    (by rfl)

end LoadInjection
